import Mathlib

/-!
Verification of the nfl-realtime-analytics repository.

Part 1 embeds the dashboard code that ships under src/ (the demo-play
cycling and the /predict request construction shared by
src/frontend/src/App.js and src/nfl-dashboard/app/nfl/page.tsx).

Part 2 models the real-time enrichment pipeline described by the design
document (Log Cursor, Play State Store, Feature Computation Engine,
Watermark Manager, Enrichment Coordinator, Sink Emitter).  The pipeline
implementation itself (src/api, src/streaming, src/ml per the README) is
not part of the checked-in sources, so every definition in that part is
modelled from the specification text and says so in its doc comment.
Machine floats are modelled as exact rationals, and Euclidean distances
are carried as squared distances (threshold comparisons agree because
both sides are nonnegative).
-/

namespace NFL

/-! ## Part 1: dashboard code (from src) -/

/-- One entry of the demo-play lists hard-coded in
src/nfl-dashboard/app/nfl/page.tsx and src/frontend/src/App.js. -/
structure DemoPlay where
  down : Int := 1
  ydstogo : Int := 10
  yardline_100 : Int := 75
  qtr : Int := 1
  half_seconds_remaining : Int := 900
  score_differential : Int := 0
  posteam : String := ""
  defteam : String := ""
  description : String := ""
deriving DecidableEq

/-- The six demo plays from src/nfl-dashboard/app/nfl/page.tsx (the list in
src/frontend/src/App.js second component carries the same six situations). -/
def demoPlays : List DemoPlay :=
  [ { down := 1, ydstogo := 10, yardline_100 := 75, qtr := 1,
      half_seconds_remaining := 900, score_differential := 0,
      posteam := "KC", defteam := "SF", description := "Opening drive" },
    { down := 3, ydstogo := 2, yardline_100 := 45, qtr := 2,
      half_seconds_remaining := 600, score_differential := -7,
      posteam := "BUF", defteam := "MIA", description := "Short yardage situation" },
    { down := 1, ydstogo := 10, yardline_100 := 15, qtr := 3,
      half_seconds_remaining := 450, score_differential := 3,
      posteam := "PHI", defteam := "DAL", description := "Red zone opportunity" },
    { down := 4, ydstogo := 1, yardline_100 := 35, qtr := 4,
      half_seconds_remaining := 180, score_differential := -4,
      posteam := "SF", defteam := "KC", description := "Go for it on 4th!" },
    { down := 2, ydstogo := 8, yardline_100 := 98, qtr := 4,
      half_seconds_remaining := 45, score_differential := -6,
      posteam := "KC", defteam := "SF", description := "Goal line, game on the line!" },
    { down := 3, ydstogo := 15, yardline_100 := 35, qtr := 4,
      half_seconds_remaining := 120, score_differential := -7,
      posteam := "DAL", defteam := "PHI", description := "3rd and long, trailing" } ]

/-- The JSON body that getPredictions posts to the /predict endpoint
(src/nfl-dashboard/app/nfl/page.tsx lines 122-136, identically
src/frontend/src/App.js lines 372-387). -/
structure PredictRequest where
  down : Int
  ydstogo : Int
  yardline_100 : Int
  qtr : Int
  half_seconds_remaining : Int
  score_differential : Int
  posteam : String
  defteam : String
  shotgun : Int
  no_huddle : Int
  defenders_in_box : Int
  number_of_pass_rushers : Int
  posteam_type : String
  goal_to_go : Int
deriving DecidableEq

/-- Embedding of getPredictions: spread the play and add the fixed fields,
with goal_to_go computed by the ternary
yardline_100 <= ydstogo ? 1 : 0. -/
def buildPredictBody (play : DemoPlay) : PredictRequest :=
  { down := play.down
    ydstogo := play.ydstogo
    yardline_100 := play.yardline_100
    qtr := play.qtr
    half_seconds_remaining := play.half_seconds_remaining
    score_differential := play.score_differential
    posteam := play.posteam
    defteam := play.defteam
    shotgun := 1
    no_huddle := 0
    defenders_in_box := 6
    number_of_pass_rushers := 4
    posteam_type := "home"
    goal_to_go := if play.yardline_100 ≤ play.ydstogo then 1 else 0 }

/-- Embedding of one simulation-interval tick
(src/nfl-dashboard/app/nfl/page.tsx lines 202-208, likewise the timer in
src/frontend/src/App.js lines 35-44): next = (prev + 1) % demoPlays.length. -/
def demoTick (i : Nat) : Nat :=
  (i + 1) % demoPlays.length

/-- The demo index reached after n ticks; the simulation effect starts the
index at 0. -/
def demoIndexAfter : Nat → Nat
  | 0 => 0
  | n + 1 => demoTick (demoIndexAfter n)

/-! ## Part 2: enrichment pipeline model

Modelled from the spec: the pipeline sources (src/api, src/streaming,
src/ml, src/simulator per the README tree) are not present under src/,
so the components below follow sections 2-7 of the design document. -/

/-- Modelled from the spec: versioned configuration of the missing pipeline
(grace period, allowed out-of-orderness bound, proximity threshold, chaos
weights normalisation constants, rusher role tags); section 4.3, 4.4 and
design note on configuration. The proximity threshold is carried squared
so that distance comparisons stay inside the rationals. -/
structure Config where
  grace : Nat := 5
  bound : Nat := 10
  proximityThresholdSq : ℚ := 4
  maxBoxCount : Nat := 8
  accelVarNorm : ℚ := 10
  rusherPositions : List String := ["DE", "DT", "LB", "EDGE"]
deriving DecidableEq

/-- Modelled from the spec: PlayEvent record of the missing ingestion layer,
fields from the input schema of section 6. A terminal play-ended marker is
an event whose play_type is "play_ended". -/
structure PlayEvent where
  game_id : String := ""
  play_id : Nat := 0
  quarter : Nat := 1
  down : Nat := 1
  ydstogo : Nat := 10
  yardline_100 : Nat := 75
  posteam : String := ""
  defteam : String := ""
  play_type : String := ""
  shotgun : Bool := false
  no_huddle : Bool := false
  formation : String := ""
  personnel : String := ""
  defenders_in_box : Nat := 6
  number_of_pass_rushers : Nat := 4
  event_time : Nat := 0
deriving DecidableEq

/-- Modelled from the spec: TrackingFrame record, fields from the input
schema of section 6; the optional tag carries the snap / release markers
that section 4.4 reads off frames ("frames tagged as a release/throw
event"). Timestamps are Nat ticks, coordinates exact rationals. -/
structure TrackingFrame where
  game_id : String := ""
  play_id : Nat := 0
  frame_id : Nat := 0
  player_id : String := ""
  team : String := ""
  position : String := ""
  x : ℚ := 0
  y : ℚ := 0
  speed : ℚ := 0
  acceleration : ℚ := 0
  direction : ℚ := 0
  tag : Option String := none
  event_time : Nat := 0
deriving DecidableEq

/-- Play identity: a play is keyed by (game_id, play_id) (glossary). -/
abbrev Key := String × Nat

/-- Modelled from the spec: mutable aggregation state of one play inside the
Play State Store (section 3): the PlayEvent once seen, the buffered frames,
the last observed frame timestamp, the terminal-signal observation, and the
completeness flag set at emission. -/
structure PlayState where
  event : Option PlayEvent := none
  frames : List TrackingFrame := []
  lastFrameTime : Nat := 0
  terminalSeen : Bool := false
  terminalTime : Nat := 0
  closed : Bool := false
deriving DecidableEq, Inhabited

/-- Pocket classification of section 4.4 (fixed tertiles of field width). -/
inductive PocketLoc where
  | left
  | center
  | right
deriving DecidableEq

/-- Modelled from the spec: the EnrichedPlay output record (sections 3 and 6).
predicted_play_type and epa come from the scoring service, an external
collaborator that section 1 puts out of scope; the model carries them as
fixed placeholder values. nearest_defender_dist is the squared Euclidean
distance (no square roots in ℚ); nullness and threshold comparisons agree
with the Euclidean value. -/
structure EnrichedPlay where
  game_id : String
  play_id : Nat
  event : Option PlayEvent
  predicted_play_type : String
  pressure_rate : Option ℚ
  time_to_throw : Option ℚ
  was_pressure : Bool
  nearest_defender_dist : Option ℚ
  qb_pocket_location : Option PocketLoc
  chaos_score : ℚ
  epa : ℚ
  complete : Bool
  processed_at : Nat
deriving DecidableEq

/-! ### Feature Computation Engine (section 4.4), modelled from the spec -/

/-- Modelled from the spec: a frame is rusher-tagged when its position role
is one of the configured pass-rusher roles. -/
def isRusher (cfg : Config) (f : TrackingFrame) : Bool :=
  cfg.rusherPositions.contains f.position

/-- Modelled from the spec: the passer is the frame of the quarterback. -/
def isPasser (f : TrackingFrame) : Bool :=
  f.position == "QB"

/-- Squared Euclidean distance between two frames of one snapshot. -/
def distSq (a b : TrackingFrame) : ℚ :=
  (a.x - b.x) * (a.x - b.x) + (a.y - b.y) * (a.y - b.y)

/-- All frames of one frame_id snapshot. -/
def frameGroup (frames : List TrackingFrame) (i : Nat) : List TrackingFrame :=
  frames.filter (fun f => f.frame_id == i)

/-- Modelled from the spec: distance from the passer to the nearest rusher
at one snapshot; none when the snapshot lacks a passer or any rusher. -/
def nearestSqAt (cfg : Config) (frames : List TrackingFrame) (i : Nat) : Option ℚ :=
  match (frameGroup frames i).find? isPasser with
  | none => none
  | some q => (((frameGroup frames i).filter (isRusher cfg)).map (fun d => distSq q d)).min?

/-- The distinct frame ids observed for a play. -/
def frameIds (frames : List TrackingFrame) : List Nat :=
  (frames.map (fun f => f.frame_id)).dedup

/-- Modelled from the spec: the pass-attempt window of section 4.4, the
snapshots at which a passer-to-nearest-rusher distance is defined. -/
def windowIds (cfg : Config) (frames : List TrackingFrame) : List Nat :=
  (frameIds frames).filter (fun i => (nearestSqAt cfg frames i).isSome)

/-- A snapshot counts as pressured when the nearest-rusher distance falls
below the configured proximity threshold. -/
def pressedAt (cfg : Config) (frames : List TrackingFrame) (i : Nat) : Bool :=
  match nearestSqAt cfg frames i with
  | some d => decide (d < cfg.proximityThresholdSq)
  | none => false

/-- The pressured snapshots of the pass-attempt window. -/
def pressedIds (cfg : Config) (frames : List TrackingFrame) : List Nat :=
  (windowIds cfg frames).filter (pressedAt cfg frames)

/-- Modelled from the spec: pressure_rate, the fraction of window frames in
which the nearest-defender distance is below the proximity threshold;
null on an empty window. -/
def pressureRateOf (cfg : Config) (frames : List TrackingFrame) : Option ℚ :=
  if windowIds cfg frames = [] then none
  else some (((pressedIds cfg frames).length : ℚ) / ((windowIds cfg frames).length : ℚ))

/-- Modelled from the spec: was_pressure records whether any window frame
was pressured; false when no rusher-tagged frames exist. -/
def wasPressureOf (cfg : Config) (frames : List TrackingFrame) : Bool :=
  !(pressedIds cfg frames).isEmpty

/-- Modelled from the spec: nearest_defender_dist, the passer-to-defender
distance at the earliest rusher-tagged snapshot; null when no rusher
frames exist. -/
def nearestDefenderDistOf (cfg : Config) (frames : List TrackingFrame) : Option ℚ :=
  match ((frames.filter (isRusher cfg)).map (fun f => f.frame_id)).min? with
  | none => none
  | some i => nearestSqAt cfg frames i

/-- Earliest timestamp among the frames carrying a given tag. -/
def taggedTime (frames : List TrackingFrame) (t : String) : Option Nat :=
  ((frames.filter (fun f => f.tag == some t)).map (fun f => f.event_time)).min?

/-- Modelled from the spec: time_to_throw, the timestamp delta between the
snap frame and the first release frame, null when either is unobserved. -/
def timeToThrowOf (frames : List TrackingFrame) : Option ℚ :=
  match taggedTime frames "ball_snap", taggedTime frames "pass_forward" with
  | some s, some t => some ((t : ℚ) - (s : ℚ))
  | _, _ => none

/-- Field width of section 6 (53.3 yards) as an exact rational. -/
def fieldWidth : ℚ := 533 / 10

/-- Fixed tertile classification of a lateral coordinate (section 4.4). -/
def classifyY (y : ℚ) : PocketLoc :=
  if y * 3 < fieldWidth then PocketLoc.left
  else if y * 3 < 2 * fieldWidth then PocketLoc.center
  else PocketLoc.right

/-- Modelled from the spec: qb_pocket_location, the tertile of the passer
lateral coordinate at the snap frame; null when snap or passer is missing. -/
def pocketLocationOf (frames : List TrackingFrame) : Option PocketLoc :=
  match ((frames.filter (fun f => f.tag == some "ball_snap")).map (fun f => f.frame_id)).min? with
  | none => none
  | some i =>
    match (frameGroup frames i).find? isPasser with
    | none => none
    | some q => some (classifyY q.y)

/-- Clamp a rational into the unit interval. -/
def clamp01 (q : ℚ) : ℚ :=
  max 0 (min 1 q)

/-- Mean of a list of rationals (0 on the empty list). -/
def meanQ (l : List ℚ) : ℚ :=
  l.sum / (l.length : ℚ)

/-- Modelled from the spec: frame-to-frame acceleration variance among all
tracked players (section 4.4), via the moment identity. -/
def accelVariance (frames : List TrackingFrame) : ℚ :=
  meanQ ((frames.map (fun f => f.acceleration)).map (fun a => a * a)) -
    meanQ (frames.map (fun f => f.acceleration)) *
      meanQ (frames.map (fun f => f.acceleration))

/-- Modelled from the spec: defender density, defenders_in_box divided by
the configured maximum box count (section 4.4); 0 without a PlayEvent. -/
def defenderDensity (cfg : Config) (st : PlayState) : ℚ :=
  match st.event with
  | some e => clamp01 ((e.defenders_in_box : ℚ) / (cfg.maxBoxCount : ℚ))
  | none => 0

/-- Modelled from the spec: chaos_score, a fixed-weight composite in [0,100]
of normalized pressure rate, defender density and acceleration variance
(weights 1/2, 1/4, 1/4 as the versioned configuration of section 4.4). -/
def chaosScoreOf (cfg : Config) (st : PlayState) : ℚ :=
  100 * (1 / 2 * clamp01 ((pressureRateOf cfg st.frames).getD 0) +
    1 / 4 * clamp01 (defenderDensity cfg st) +
    1 / 4 * clamp01 (accelVariance st.frames / cfg.accelVarNorm))

/-- Modelled from the spec: the pure transform PlayState to EnrichedPlay of
section 4.4; total on partial states, missing inputs become null fields.
epa and predicted_play_type belong to the out-of-scope scoring
collaborator and are fixed placeholders. -/
def computeFeatures (cfg : Config) (k : Key) (st : PlayState) (ts : Nat) : EnrichedPlay :=
  { game_id := k.1
    play_id := k.2
    event := st.event
    predicted_play_type := ""
    pressure_rate := pressureRateOf cfg st.frames
    time_to_throw := timeToThrowOf st.frames
    was_pressure := wasPressureOf cfg st.frames
    nearest_defender_dist := nearestDefenderDistOf cfg st.frames
    qb_pocket_location := pocketLocationOf st.frames
    chaos_score := chaosScoreOf cfg st
    epa := 0
    complete := st.event.isSome
    processed_at := ts }

/-! ### Play State Store, Watermark Manager, Coordinator, Sink Emitter -/

/-- Association-list lookup on the first matching key. -/
def alookup {α : Type} (k : Key) : List (Key × α) → Option α
  | [] => none
  | (k1, v) :: rest => if k1 = k then some v else alookup k rest

/-- Association-list update of the first matching entry. -/
def aupdate {α : Type} (k : Key) (g : α → α) : List (Key × α) → List (Key × α)
  | [] => []
  | (k1, v) :: rest =>
    if k1 = k then (k1, g v) :: rest else (k1, v) :: aupdate k g rest

/-- One raw record from one of the two Log Cursors. -/
inductive Rec where
  | pe (e : PlayEvent)
  | tf (f : TrackingFrame)
deriving DecidableEq

/-- Key of a play event. -/
def keyOfEvent (e : PlayEvent) : Key :=
  (e.game_id, e.play_id)

/-- Key of a tracking frame. -/
def keyOfFrame (f : TrackingFrame) : Key :=
  (f.game_id, f.play_id)

/-- Key of an enriched record: (game_id, play_id) upsert identity. -/
def keyOfEnriched (e : EnrichedPlay) : Key :=
  (e.game_id, e.play_id)

/-- Modelled from the spec: the terminal play-ended marker of section 4.3
is an explicit PlayEvent whose play_type is "play_ended". -/
def isTerminal (e : PlayEvent) : Bool :=
  e.play_type == "play_ended"

/-- Modelled from the spec: merge a PlayEvent into a PlayState (section 4.2
upsert): the first non-terminal event is kept immutably, a terminal event
records the terminal signal and its timestamp. -/
def applyEvent (e : PlayEvent) (st : PlayState) : PlayState :=
  if isTerminal e then
    if st.terminalSeen then st
    else { st with terminalSeen := true, terminalTime := e.event_time }
  else
    match st.event with
    | some _ => st
    | none => { st with event := some e }

/-- Modelled from the spec: merge a TrackingFrame into a PlayState,
appending it to the buffer and advancing the last-observed frame time. -/
def applyFrame (f : TrackingFrame) (st : PlayState) : PlayState :=
  { st with
    frames := st.frames ++ [f]
    lastFrameTime := max st.lastFrameTime f.event_time }

/-- Modelled from the spec: whole pipeline state of sections 2 and 5: the
keyed Play State Store, one watermark per input partition (one partition
per stream), the downstream sink keyed by play identity, and the
late-data side channel of section 7. -/
structure PipelineState where
  store : List (Key × PlayState) := []
  wmEvents : Nat := 0
  wmFrames : Nat := 0
  sink : List (Key × EnrichedPlay) := []
  lateRecords : List Rec := []
deriving DecidableEq, Inhabited

/-- Modelled from the spec: the pipeline-wide watermark for a play is the
minimum of the two stream watermarks (section 4.3). -/
def pipelineWm (s : PipelineState) : Nat :=
  min s.wmEvents s.wmFrames

/-- Modelled from the spec: closure eligibility of section 4.3: watermark
at or past last frame time plus grace, or a terminal signal observed and
the grace period elapsed past it. -/
def closableB (grace wm : Nat) (st : PlayState) : Bool :=
  decide (st.lastFrameTime + grace ≤ wm) ||
    (st.terminalSeen && decide (st.terminalTime + grace ≤ wm))

/-- The closure condition as a proposition. -/
def closureCond (grace wm : Nat) (st : PlayState) : Prop :=
  st.lastFrameTime + grace ≤ wm ∨
    (st.terminalSeen = true ∧ st.terminalTime + grace ≤ wm)

instance (grace wm : Nat) (st : PlayState) : Decidable (closureCond grace wm st) := by
  unfold closureCond
  infer_instance

/-- Key of a raw record. -/
def keyOfRec : Rec → Key
  | Rec.pe e => keyOfEvent e
  | Rec.tf f => keyOfFrame f

/-- Merge a raw record into a play state. -/
def applyRec : Rec → PlayState → PlayState
  | Rec.pe e => applyEvent e
  | Rec.tf f => applyFrame f

/-- Modelled from the spec: route one record into the Play State Store
(section 4.5); a state is created on first sighting (section 3), records
for an already-closed play are diverted to the side channel and never
merged (section 7, LateData). -/
def ingest (s : PipelineState) (r : Rec) : PipelineState :=
  match alookup (keyOfRec r) s.store with
  | none => { s with store := (keyOfRec r, applyRec r {}) :: s.store }
  | some st =>
    if st.closed then { s with lateRecords := s.lateRecords ++ [r] }
    else { s with store := aupdate (keyOfRec r) (applyRec r) s.store }

/-- Modelled from the spec: per-partition watermark maintenance of section
4.3: maximum event timestamp observed so far minus the out-of-orderness
bound, monotone via max. -/
def advanceWm (cfg : Config) (s : PipelineState) (r : Rec) : PipelineState :=
  match r with
  | Rec.pe e => { s with wmEvents := max s.wmEvents (e.event_time - cfg.bound) }
  | Rec.tf f => { s with wmFrames := max s.wmFrames (f.event_time - cfg.bound) }

/-- Close a single play state when it is open and eligible. -/
def closeOne (grace wm : Nat) (st : PlayState) : PlayState :=
  if !st.closed && closableB grace wm st then { st with closed := true } else st

/-- Mark every open, closure-eligible play closed (section 4.5). -/
def closeStore (grace wm : Nat) (store : List (Key × PlayState)) :
    List (Key × PlayState) :=
  store.map (fun p => (p.1, closeOne grace wm p.2))

/-- The enriched records emitted while closing the eligible plays. -/
def closeEmits (cfg : Config) (wm : Nat) (store : List (Key × PlayState)) :
    List EnrichedPlay :=
  (store.filter (fun p => !p.2.closed && closableB cfg.grace wm p.2)).map
    (fun p => computeFeatures cfg p.1 p.2 wm)

/-- Modelled from the spec: the Sink Emitter publish of section 4.6,
an upsert keyed by (game_id, play_id). -/
def publish (e : EnrichedPlay) (sink : List (Key × EnrichedPlay)) :
    List (Key × EnrichedPlay) :=
  if (alookup (keyOfEnriched e) sink).isSome then
    aupdate (keyOfEnriched e) (fun _ => e) sink
  else (keyOfEnriched e, e) :: sink

/-- Publish a batch of enriched records in order. -/
def publishList (es : List EnrichedPlay) (sink : List (Key × EnrichedPlay)) :
    List (Key × EnrichedPlay) :=
  es.foldl (fun acc e => publish e acc) sink

/-- Modelled from the spec: one Enrichment Coordinator step (section 4.5):
route the record into the store, advance the watermark of its partition,
then close and emit every play that became eligible. -/
def step (cfg : Config) (s : PipelineState) (r : Rec) : PipelineState :=
  let s2 := advanceWm cfg (ingest s r) r
  { s2 with
    store := closeStore cfg.grace (pipelineWm s2) s2.store
    sink := publishList (closeEmits cfg (pipelineWm s2) s2.store) s2.sink }

/-- The enriched records emitted during one step. -/
def stepEmits (cfg : Config) (s : PipelineState) (r : Rec) : List EnrichedPlay :=
  let s2 := advanceWm cfg (ingest s r) r
  closeEmits cfg (pipelineWm s2) s2.store

/-- Drive the coordinator over a batch from a given state. -/
def runFrom (cfg : Config) (s : PipelineState) (l : List Rec) : PipelineState :=
  l.foldl (step cfg) s

/-- Run the pipeline from the empty initial state. -/
def run (cfg : Config) (l : List Rec) : PipelineState :=
  runFrom cfg {} l

/-- All enriched records emitted while running a batch from a state. -/
def emitsFrom (cfg : Config) (s : PipelineState) : List Rec → List EnrichedPlay
  | [] => []
  | r :: rest => stepEmits cfg s r ++ emitsFrom cfg (step cfg s r) rest

/-- Modelled from the spec: crash and restart of sections 4.5 and 5: the
run crashes after k records with offsets committed up to c; the published
sink survives downstream, the coordinator resumes from the state
checkpointed at the committed offset (in-flight PlayStates are
checkpointed so they resume correctly) and replays the log from offset c. -/
def checkpointResume (cfg : Config) (inputs : List Rec) (c k : Nat) : PipelineState :=
  let pre := run cfg (inputs.take k)
  let ckpt := run cfg (inputs.take c)
  runFrom cfg { ckpt with sink := pre.sink } (inputs.drop c)

/-- The last record of a publish batch that carries a given key: the record
the upsert semantics retains. -/
def lastPub (q : Key) : List EnrichedPlay → Option EnrichedPlay
  | [] => none
  | e :: rest =>
    match lastPub q rest with
    | some v => some v
    | none => if keyOfEnriched e = q then some e else none

/-- The pipeline invariant: store keys are unique (one PlayState per play,
section 3), a tracked play is closed exactly when the closure condition of
section 4.3 holds at the current watermark, and the sink holds a record
exactly for the closed plays. -/
def Inv (cfg : Config) (s : PipelineState) : Prop :=
  (s.store.map Prod.fst).Nodup ∧
    (∀ k st, alookup k s.store = some st →
      (st.closed = true ↔ closureCond cfg.grace (pipelineWm s) st)) ∧
    (∀ q, (alookup q s.sink).isSome = true ↔
      ∃ st, alookup q s.store = some st ∧ st.closed = true)

/-! ### Concrete pipeline inputs used by the witnesses -/

/-- The sample configuration (grace 5, out-of-orderness bound 10). -/
def cfgEx : Config := {}

/-- A terminal play-ended marker for play ("g", 1) at event time 20. -/
def exTerm : PlayEvent :=
  { game_id := "g", play_id := 1, play_type := "play_ended", event_time := 20 }

/-- A frame for play ("g", 1) stamped 100, later than the terminal marker. -/
def exFrame : TrackingFrame :=
  { game_id := "g", play_id := 1, frame_id := 0, event_time := 100 }

/-- An ordinary event of another play that advances the event watermark. -/
def exEvB : PlayEvent :=
  { game_id := "g", play_id := 2, play_type := "pass", event_time := 40 }

/-- A three-record log: play ("g", 1) ends, its late-data frame arrives,
then another play advances the event-stream watermark past the grace. -/
def exInputs : List Rec :=
  [Rec.pe exTerm, Rec.tf exFrame, Rec.pe exEvB]

/-- The pipeline state after the first two sample records. -/
def exPre : PipelineState :=
  run cfgEx [Rec.pe exTerm, Rec.tf exFrame]

/-- The pipeline state after the whole sample log: ("g", 1) is closed. -/
def exPost : PipelineState :=
  run cfgEx exInputs

/-- The state of the sample play ("g", 1) after the whole sample log. -/
def exStClosed : PlayState :=
  (alookup ("g", 1) exPost.store).getD {}

/-- The state of the sample play ("g", 1) after the first two records,
while it is still open. -/
def exStOpen : PlayState :=
  (alookup ("g", 1) exPre.store).getD {}

/-- A frame for ("g", 1) arriving after that play has closed. -/
def exLateFrame : TrackingFrame :=
  { game_id := "g", play_id := 1, frame_id := 5, event_time := 12 }

/-! ### Concrete scenario of section 8 (pressure rate 18 of 30) -/

/-- Scenario passer frame i: the quarterback standing at (10, 20). -/
def qbFrame (i : Nat) : TrackingFrame :=
  { game_id := "g", play_id := 3, frame_id := i, player_id := "qb",
    position := "QB", x := 10, y := 20, event_time := i }

/-- Scenario rusher frame i: a defensive end within the proximity threshold
(squared distance 1 against threshold 4) on the first 18 snapshots and far
away (squared distance 25) on the other 12. -/
def rushFrame (i : Nat) : TrackingFrame :=
  { game_id := "g", play_id := 3, frame_id := i, player_id := "de",
    position := "DE", x := if i < 18 then 11 else 15, y := 20, event_time := i }

/-- The 30 tracking snapshots of the section 8 scenario. -/
def scenFrames : List TrackingFrame :=
  (List.range 30).flatMap (fun i => [qbFrame i, rushFrame i])

/-- The PlayEvent of the section 8 scenario: down 1, 10 to go, yardline 75. -/
def scenEvent : PlayEvent :=
  { game_id := "g", play_id := 3, down := 1, ydstogo := 10, yardline_100 := 75 }

/-- The PlayState of the section 8 scenario. -/
def scenState : PlayState :=
  { event := some scenEvent, frames := scenFrames, lastFrameTime := 29 }

/-- A play state whose frames carry no rusher-tagged position at all. -/
def noRusherState : PlayState :=
  { event := some scenEvent
    frames := [ { game_id := "g", play_id := 4, frame_id := 0, position := "QB" },
                { game_id := "g", play_id := 4, frame_id := 0, position := "WR" } ] }

/-- A demo play whose yard line equals the distance to go. -/
def goalLinePlay : DemoPlay :=
  { down := 1, ydstogo := 8, yardline_100 := 8, qtr := 4 }

/-! ## Association-list and publish lemmas -/

theorem alookup_cons {α : Type} (k1 : Key) (v : α) (l : List (Key × α)) (k : Key) :
    alookup k ((k1, v) :: l) = if k1 = k then some v else alookup k l :=
  rfl

theorem alookup_aupdate_self {α : Type} (k : Key) (g : α → α) (l : List (Key × α)) :
    alookup k (aupdate k g l) = (alookup k l).map g := by
  induction l with
  | nil => rfl
  | cons p t ih =>
    obtain ⟨k1, v⟩ := p
    by_cases h : k1 = k
    · simp [aupdate, alookup, h]
    · simp [aupdate, alookup, h, ih]

theorem alookup_aupdate_ne {α : Type} (k1 k : Key) (g : α → α) (l : List (Key × α))
    (h : k1 ≠ k) : alookup k (aupdate k1 g l) = alookup k l := by
  induction l with
  | nil => rfl
  | cons p t ih =>
    obtain ⟨k2, v⟩ := p
    by_cases h2 : k2 = k1
    · subst h2
      simp [aupdate, alookup, h]
    · by_cases h3 : k2 = k
      · simp [aupdate, alookup, h2, h3, Ne.symm h]
      · simp [aupdate, alookup, h2, h3, ih]

theorem aupdate_keys {α : Type} (k : Key) (g : α → α) (l : List (Key × α)) :
    (aupdate k g l).map Prod.fst = l.map Prod.fst := by
  induction l with
  | nil => rfl
  | cons p t ih =>
    obtain ⟨k1, v⟩ := p
    by_cases h : k1 = k <;> simp [aupdate, h, ih]

theorem alookup_mapSnd {α β : Type} (g : α → β) (l : List (Key × α)) (k : Key) :
    alookup k (l.map (fun p => (p.1, g p.2))) = (alookup k l).map g := by
  induction l with
  | nil => rfl
  | cons p t ih =>
    obtain ⟨k1, v⟩ := p
    by_cases h : k1 = k <;> simp [alookup, h, ih]

theorem mem_of_alookup {α : Type} {k : Key} {v : α} {l : List (Key × α)}
    (h : alookup k l = some v) : (k, v) ∈ l := by
  induction l with
  | nil => simp [alookup] at h
  | cons p t ih =>
    obtain ⟨k1, w⟩ := p
    by_cases h1 : k1 = k
    · subst h1
      simp [alookup] at h
      simp [h]
    · simp [alookup, h1] at h
      exact List.mem_cons_of_mem _ (ih h)

theorem isSome_alookup_of_mem {α : Type} {k : Key} {v : α} {l : List (Key × α)}
    (h : (k, v) ∈ l) : (alookup k l).isSome = true := by
  induction l with
  | nil => simp at h
  | cons p t ih =>
    obtain ⟨k1, w⟩ := p
    by_cases h1 : k1 = k
    · simp [alookup, h1]
    · rcases List.mem_cons.mp h with h2 | h2
      · cases h2
        simp at h1
      · simp [alookup, h1, ih h2]

theorem alookup_eq_none_iff {α : Type} {k : Key} {l : List (Key × α)} :
    alookup k l = none ↔ k ∉ l.map Prod.fst := by
  induction l with
  | nil => simp [alookup]
  | cons p t ih =>
    obtain ⟨k1, v⟩ := p
    by_cases h : k1 = k <;> simp [alookup, h, ih] <;> simp [Ne.symm h]

theorem alookup_of_mem_nodup {α : Type} {k : Key} {v : α} {l : List (Key × α)}
    (hn : (l.map Prod.fst).Nodup) (hm : (k, v) ∈ l) : alookup k l = some v := by
  induction l with
  | nil => simp at hm
  | cons p t ih =>
    obtain ⟨k1, w⟩ := p
    simp only [List.map_cons, List.nodup_cons] at hn
    rcases List.mem_cons.mp hm with h2 | h2
    · cases h2
      simp [alookup]
    · have hne : k1 ≠ k := by
        intro he
        subst he
        exact hn.1 (List.mem_map.mpr ⟨(k1, v), h2, rfl⟩)
      simp [alookup, hne, ih hn.2 h2]

theorem alookup_publish (e : EnrichedPlay) (sink : List (Key × EnrichedPlay)) (q : Key) :
    alookup q (publish e sink) =
      if keyOfEnriched e = q then some e else alookup q sink := by
  unfold publish
  rcases hs : alookup (keyOfEnriched e) sink with _ | w
  · simp only [hs, Option.isSome_none, Bool.false_eq_true, if_false]
    rw [alookup_cons]
  · simp only [hs, Option.isSome_some, if_true]
    by_cases hq : keyOfEnriched e = q
    · subst hq
      rw [alookup_aupdate_self, hs]
      simp
    · rw [alookup_aupdate_ne _ _ _ _ hq]
      simp [hq]

theorem publishList_append (a b : List EnrichedPlay) (sink : List (Key × EnrichedPlay)) :
    publishList (a ++ b) sink = publishList b (publishList a sink) :=
  List.foldl_append _ _ _ _

theorem alookup_publishList (es : List EnrichedPlay) (sink : List (Key × EnrichedPlay))
    (q : Key) :
    alookup q (publishList es sink) =
      match lastPub q es with
      | some v => some v
      | none => alookup q sink := by
  induction es generalizing sink with
  | nil => rfl
  | cons e t ih =>
    show alookup q (publishList t (publish e sink)) = _
    rw [ih]
    rcases ht : lastPub q t with _ | v
    · simp only [lastPub, ht]
      rw [alookup_publish]
      by_cases hq : keyOfEnriched e = q <;> simp [hq]
    · simp [lastPub, ht]

theorem lastPub_append (q : Key) (a b : List EnrichedPlay) :
    lastPub q (a ++ b) =
      match lastPub q b with
      | some v => some v
      | none => lastPub q a := by
  induction a with
  | nil =>
    simp only [List.nil_append]
    rcases hb : lastPub q b with _ | v <;> simp [hb, lastPub]
  | cons e t ih =>
    show lastPub q (e :: (t ++ b)) = _
    simp only [lastPub, ih]
    rcases hb : lastPub q b with _ | v <;> rcases ht : lastPub q t with _ | w <;> simp

theorem lastPub_eq_none {es : List EnrichedPlay} {q : Key}
    (h : ∀ e ∈ es, keyOfEnriched e ≠ q) : lastPub q es = none := by
  induction es with
  | nil => rfl
  | cons e t ih =>
    have ht : lastPub q t = none := ih (fun x hx => h x (List.mem_cons_of_mem _ hx))
    simp [lastPub, ht, h e (List.mem_cons_self e t)]

theorem lastPub_isSome {q : Key} :
    ∀ {es : List EnrichedPlay} {e : EnrichedPlay}, e ∈ es → keyOfEnriched e = q →
      (lastPub q es).isSome = true := by
  intro es
  induction es with
  | nil =>
    intro e hm hk
    simp at hm
  | cons x t ih =>
    intro e hm hk
    rcases List.mem_cons.mp hm with h2 | h2
    · subst h2
      simp only [lastPub]
      rcases ht : lastPub q t with _ | v <;> simp [hk]
    · have hr := ih h2 hk
      simp only [lastPub]
      rcases ht : lastPub q t with _ | v
      · rw [ht] at hr
        simp at hr
      · simp

/-! ## Closure, ingest and watermark lemmas -/

theorem closableB_iff (g w : Nat) (st : PlayState) :
    closableB g w st = true ↔ closureCond g w st := by
  simp [closableB, closureCond, Bool.or_eq_true, Bool.and_eq_true, decide_eq_true_eq]

theorem closureCond_mono (g : Nat) {w w2 : Nat} (h : w ≤ w2) (st : PlayState) :
    closureCond g w st → closureCond g w2 st := by
  intro hc
  rcases hc with hc | ⟨ht, hc⟩
  · exact Or.inl (le_trans hc h)
  · exact Or.inr ⟨ht, le_trans hc h⟩

theorem closureCond_closeOne (g w g2 w2 : Nat) (st : PlayState) :
    closureCond g w (closeOne g2 w2 st) ↔ closureCond g w st := by
  unfold closeOne
  split <;> simp [closureCond]

theorem closeOne_of_closed {g wm : Nat} {st : PlayState} (h : st.closed = true) :
    closeOne g wm st = st := by
  unfold closeOne
  simp [h]

theorem closeOne_closed_iff (g wm : Nat) (st : PlayState) :
    (closeOne g wm st).closed = true ↔ (st.closed = true ∨ closureCond g wm st) := by
  unfold closeOne
  by_cases hc : st.closed = true
  · simp [hc]
  · have hb : st.closed = false := by simp at hc; exact hc
    by_cases he : closableB g wm st = true
    · simp [hb, he, (closableB_iff g wm st).mp he]
    · have hne : ¬closureCond g wm st := fun hx => he ((closableB_iff g wm st).mpr hx)
      simp [hb, he, hne]

theorem applyEvent_closed (e : PlayEvent) (st : PlayState) :
    (applyEvent e st).closed = st.closed := by
  unfold applyEvent
  split
  · split <;> rfl
  · split <;> rfl

theorem applyFrame_closed (f : TrackingFrame) (st : PlayState) :
    (applyFrame f st).closed = st.closed :=
  rfl

theorem applyRec_closed (r : Rec) (st : PlayState) :
    (applyRec r st).closed = st.closed := by
  cases r with
  | pe e => exact applyEvent_closed e st
  | tf f => rfl

theorem ingest_wmEvents (s : PipelineState) (r : Rec) :
    (ingest s r).wmEvents = s.wmEvents := by
  unfold ingest
  split
  · rfl
  · split <;> rfl

theorem ingest_wmFrames (s : PipelineState) (r : Rec) :
    (ingest s r).wmFrames = s.wmFrames := by
  unfold ingest
  split
  · rfl
  · split <;> rfl

theorem ingest_sink (s : PipelineState) (r : Rec) :
    (ingest s r).sink = s.sink := by
  unfold ingest
  split
  · rfl
  · split <;> rfl

theorem ingest_closed_persist {s : PipelineState} {r : Rec} {k : Key} {st : PlayState}
    (h : alookup k s.store = some st) (hc : st.closed = true) :
    alookup k (ingest s r).store = some st := by
  unfold ingest
  rcases h2 : alookup (keyOfRec r) s.store with _ | st2
  · have hne : keyOfRec r ≠ k := by
      intro he
      rw [he, h] at h2
      cases h2
    simp only [alookup_cons, if_neg hne]
    exact h
  · by_cases hcl : st2.closed = true
    · simp [hcl, h]
    · have hne : keyOfRec r ≠ k := by
        intro he
        rw [he, h] at h2
        cases h2
        simp [hc] at hcl
      simp only [hcl, if_false]
      simp only [Bool.false_eq_true, if_false]
      rw [alookup_aupdate_ne _ _ _ _ hne]
      exact h

theorem ingest_closed_flag {s : PipelineState} {r : Rec} {k : Key} {st st2 : PlayState}
    (h1 : alookup k s.store = some st) (h2 : alookup k (ingest s r).store = some st2) :
    st2.closed = st.closed := by
  unfold ingest at h2
  rcases h3 : alookup (keyOfRec r) s.store with _ | st3 <;> rw [h3] at h2
  · have hne : keyOfRec r ≠ k := by
      intro he
      rw [he, h1] at h3
      cases h3
    rw [alookup_cons, if_neg hne, h1] at h2
    cases h2
    rfl
  · by_cases hcl : st3.closed = true
    · simp only [hcl, if_true] at h2
      rw [h1] at h2
      cases h2
      rfl
    · simp only [hcl] at h2
      simp only [Bool.false_eq_true, if_false] at h2
      by_cases he : keyOfRec r = k
      · subst he
        rw [alookup_aupdate_self, h1] at h2
        cases h2
        rw [h1] at h3
        cases h3
        exact applyRec_closed r st
      · rw [alookup_aupdate_ne _ _ _ _ he, h1] at h2
        cases h2
        rfl

theorem ingest_new_open {s : PipelineState} {r : Rec} {k : Key} {st2 : PlayState}
    (h1 : alookup k s.store = none) (h2 : alookup k (ingest s r).store = some st2) :
    st2.closed = false := by
  unfold ingest at h2
  rcases h3 : alookup (keyOfRec r) s.store with _ | st3 <;> rw [h3] at h2
  · by_cases he : keyOfRec r = k
    · rw [alookup_cons, if_pos he] at h2
      cases h2
      rw [applyRec_closed]
    · rw [alookup_cons, if_neg he, h1] at h2
      cases h2
  · by_cases hcl : st3.closed = true
    · simp only [hcl, if_true] at h2
      rw [h1] at h2
      cases h2
    · simp only [hcl] at h2
      simp only [Bool.false_eq_true, if_false] at h2
      by_cases he : keyOfRec r = k
      · subst he
        rw [h1] at h3
        cases h3
      · rw [alookup_aupdate_ne _ _ _ _ he, h1] at h2
        cases h2

theorem ingest_keys_nodup {s : PipelineState} {r : Rec}
    (h : (s.store.map Prod.fst).Nodup) : ((ingest s r).store.map Prod.fst).Nodup := by
  unfold ingest
  rcases h2 : alookup (keyOfRec r) s.store with _ | st2
  · simp only [List.map_cons, List.nodup_cons]
    exact ⟨alookup_eq_none_iff.mp h2, h⟩
  · by_cases hcl : st2.closed = true
    · simp [hcl, h]
    · simp only [hcl]
      simp only [Bool.false_eq_true, if_false]
      rw [aupdate_keys]
      exact h

theorem ingest_late {s : PipelineState} {r : Rec} {st : PlayState}
    (h : alookup (keyOfRec r) s.store = some st) (hc : st.closed = true) :
    ingest s r = { s with lateRecords := s.lateRecords ++ [r] } := by
  unfold ingest
  rw [h]
  simp [hc]

theorem ingest_sink_shift (s : PipelineState) (X : List (Key × EnrichedPlay)) (r : Rec) :
    ingest { s with sink := X } r = { ingest s r with sink := X } := by
  unfold ingest
  rcases h2 : alookup (keyOfRec r) s.store with _ | st2 <;> simp only [h2]
  by_cases hcl : st2.closed = true <;> simp [hcl]

theorem advanceWm_store (cfg : Config) (s : PipelineState) (r : Rec) :
    (advanceWm cfg s r).store = s.store := by
  cases r <;> rfl

theorem advanceWm_sink (cfg : Config) (s : PipelineState) (r : Rec) :
    (advanceWm cfg s r).sink = s.sink := by
  cases r <;> rfl

theorem advanceWm_late (cfg : Config) (s : PipelineState) (r : Rec) :
    (advanceWm cfg s r).lateRecords = s.lateRecords := by
  cases r <;> rfl

theorem advanceWm_wmEvents_le (cfg : Config) (s : PipelineState) (r : Rec) :
    s.wmEvents ≤ (advanceWm cfg s r).wmEvents := by
  cases r with
  | pe e => exact le_max_left _ _
  | tf f => exact le_refl _

theorem advanceWm_wmFrames_le (cfg : Config) (s : PipelineState) (r : Rec) :
    s.wmFrames ≤ (advanceWm cfg s r).wmFrames := by
  cases r with
  | pe e => exact le_refl _
  | tf f => exact le_max_left _ _

theorem advanceWm_sink_shift (cfg : Config) (s : PipelineState)
    (X : List (Key × EnrichedPlay)) (r : Rec) :
    advanceWm cfg { s with sink := X } r = { advanceWm cfg s r with sink := X } := by
  cases r <;> rfl

/-! ## Step structure lemmas -/

theorem step_store (cfg : Config) (s : PipelineState) (r : Rec) :
    (step cfg s r).store =
      closeStore cfg.grace (pipelineWm (advanceWm cfg (ingest s r) r))
        (ingest s r).store := by
  show closeStore cfg.grace _ (advanceWm cfg (ingest s r) r).store = _
  rw [advanceWm_store]

theorem step_sink (cfg : Config) (s : PipelineState) (r : Rec) :
    (step cfg s r).sink =
      publishList
        (closeEmits cfg (pipelineWm (advanceWm cfg (ingest s r) r)) (ingest s r).store)
        s.sink := by
  show publishList (closeEmits cfg _ (advanceWm cfg (ingest s r) r).store)
      (advanceWm cfg (ingest s r) r).sink = _
  rw [advanceWm_store, advanceWm_sink, ingest_sink]

theorem step_wmEvents (cfg : Config) (s : PipelineState) (r : Rec) :
    (step cfg s r).wmEvents = (advanceWm cfg (ingest s r) r).wmEvents :=
  rfl

theorem step_wmFrames (cfg : Config) (s : PipelineState) (r : Rec) :
    (step cfg s r).wmFrames = (advanceWm cfg (ingest s r) r).wmFrames :=
  rfl

theorem step_late (cfg : Config) (s : PipelineState) (r : Rec) :
    (step cfg s r).lateRecords = (ingest s r).lateRecords := by
  show (advanceWm cfg (ingest s r) r).lateRecords = _
  rw [advanceWm_late]

theorem step_pipelineWm (cfg : Config) (s : PipelineState) (r : Rec) :
    pipelineWm (step cfg s r) = pipelineWm (advanceWm cfg (ingest s r) r) :=
  rfl

theorem wmEvents_le_step (cfg : Config) (s : PipelineState) (r : Rec) :
    s.wmEvents ≤ (step cfg s r).wmEvents := by
  rw [step_wmEvents]
  calc s.wmEvents = (ingest s r).wmEvents := (ingest_wmEvents s r).symm
    _ ≤ (advanceWm cfg (ingest s r) r).wmEvents := advanceWm_wmEvents_le cfg _ r

theorem wmFrames_le_step (cfg : Config) (s : PipelineState) (r : Rec) :
    s.wmFrames ≤ (step cfg s r).wmFrames := by
  rw [step_wmFrames]
  calc s.wmFrames = (ingest s r).wmFrames := (ingest_wmFrames s r).symm
    _ ≤ (advanceWm cfg (ingest s r) r).wmFrames := advanceWm_wmFrames_le cfg _ r

theorem pipelineWm_le_step (cfg : Config) (s : PipelineState) (r : Rec) :
    pipelineWm s ≤ pipelineWm (step cfg s r) :=
  min_le_min (wmEvents_le_step cfg s r) (wmFrames_le_step cfg s r)

theorem alookup_closeStore (g wm : Nat) (store : List (Key × PlayState)) (k : Key) :
    alookup k (closeStore g wm store) = (alookup k store).map (closeOne g wm) :=
  alookup_mapSnd _ _ _

theorem closeStore_keys (g wm : Nat) (store : List (Key × PlayState)) :
    (closeStore g wm store).map Prod.fst = store.map Prod.fst := by
  unfold closeStore
  rw [List.map_map]
  rfl

theorem keyOfEnriched_computeFeatures (cfg : Config) (k : Key) (st : PlayState) (ts : Nat) :
    keyOfEnriched (computeFeatures cfg k st ts) = k :=
  rfl

theorem mem_closeEmits {cfg : Config} {wm : Nat} {store : List (Key × PlayState)}
    {e : EnrichedPlay} (h : e ∈ closeEmits cfg wm store) :
    ∃ p, p ∈ store ∧ (!p.2.closed && closableB cfg.grace wm p.2) = true ∧
      e = computeFeatures cfg p.1 p.2 wm := by
  unfold closeEmits at h
  rcases List.mem_map.mp h with ⟨p, hp, he⟩
  rcases List.mem_filter.mp hp with ⟨hmem, hcond⟩
  exact ⟨p, hmem, hcond, he.symm⟩

theorem closeEmits_mem {cfg : Config} {wm : Nat} {store : List (Key × PlayState)}
    {p : Key × PlayState} (hp : p ∈ store)
    (hc : (!p.2.closed && closableB cfg.grace wm p.2) = true) :
    computeFeatures cfg p.1 p.2 wm ∈ closeEmits cfg wm store := by
  unfold closeEmits
  exact List.mem_map.mpr ⟨p, List.mem_filter.mpr ⟨hp, hc⟩, rfl⟩

/-- Closed plays never appear among the emissions of a close phase when the
store keys are unique. -/
theorem closed_key_not_emitted {cfg : Config} {wm : Nat}
    {store : List (Key × PlayState)} {k : Key} {st : PlayState}
    (hn : (store.map Prod.fst).Nodup) (hl : alookup k store = some st)
    (hc : st.closed = true) :
    ∀ e ∈ closeEmits cfg wm store, keyOfEnriched e ≠ k := by
  intro e he hk
  rcases mem_closeEmits he with ⟨p, hp, hcond, hee⟩
  rw [hee, keyOfEnriched_computeFeatures] at hk
  subst hk
  have : alookup p.1 store = some p.2 := alookup_of_mem_nodup hn (by
    rcases p with ⟨k1, st1⟩
    exact hp)
  rw [hl] at this
  cases this
  rw [hc] at hcond
  simp at hcond

/-! ## Invariant preservation -/

theorem inv2_ingest {s : PipelineState} {r : Rec}
    (h : ∀ q, (alookup q s.sink).isSome = true ↔
      ∃ st, alookup q s.store = some st ∧ st.closed = true) :
    ∀ q, (alookup q (ingest s r).sink).isSome = true ↔
      ∃ st, alookup q (ingest s r).store = some st ∧ st.closed = true := by
  intro q
  rw [ingest_sink, h q]
  constructor
  · rintro ⟨st, hl, hc⟩
    exact ⟨st, ingest_closed_persist hl hc, hc⟩
  · rintro ⟨st2, hl2, hc2⟩
    rcases h0 : alookup q s.store with _ | st0
    · rw [ingest_new_open h0 hl2] at hc2
      cases hc2
    · refine ⟨st0, rfl, ?_⟩
      rw [← ingest_closed_flag h0 hl2]
      exact hc2

theorem inv_step (cfg : Config) (s : PipelineState) (r : Rec) (h : Inv cfg s) :
    Inv cfg (step cfg s r) := by
  obtain ⟨hnodup, hclose, hsink⟩ := h
  have hnodup2 : ((ingest s r).store.map Prod.fst).Nodup := ingest_keys_nodup hnodup
  have hwm : pipelineWm s ≤ pipelineWm (advanceWm cfg (ingest s r) r) := by
    have := pipelineWm_le_step cfg s r
    rw [step_pipelineWm] at this
    exact this
  refine ⟨?_, ?_, ?_⟩
  · rw [step_store]
    rw [show (closeStore cfg.grace (pipelineWm (advanceWm cfg (ingest s r) r))
      (ingest s r).store).map Prod.fst = (ingest s r).store.map Prod.fst from
      closeStore_keys _ _ _]
    exact hnodup2
  · intro k st2 hl2
    rw [step_store, alookup_closeStore] at hl2
    rcases Option.map_eq_some'.mp hl2 with ⟨st3, hl3, he3⟩
    subst he3
    rw [step_pipelineWm]
    set wm2 := pipelineWm (advanceWm cfg (ingest s r) r) with hwm2
    rw [closeOne_closed_iff, closureCond_closeOne]
    constructor
    · rintro (hc3 | hc3)
      · rcases h0 : alookup k s.store with _ | st0
        · rw [ingest_new_open h0 hl3] at hc3
          cases hc3
        · have hflag := ingest_closed_flag h0 hl3
          rw [hc3] at hflag
          have hcond0 := (hclose k st0 h0).mp hflag.symm
          have hst3 : st3 = st0 := by
            have hpers := ingest_closed_persist (r := r) h0 hflag.symm
            rw [hl3] at hpers
            cases hpers
            rfl
          rw [hst3]
          exact closureCond_mono cfg.grace hwm st0 hcond0
      · exact hc3
    · intro hcond
      exact Or.inr hcond
  · intro q
    rw [step_sink, step_store, alookup_closeStore]
    set wm2 := pipelineWm (advanceWm cfg (ingest s r) r) with hwm2
    have hsink2 := inv2_ingest (r := r) hsink q
    rw [ingest_sink] at hsink2
    rw [alookup_publishList]
    rcases h3 : alookup q (ingest s r).store with _ | st3
    · have hnone : lastPub q (closeEmits cfg wm2 (ingest s r).store) = none := by
        apply lastPub_eq_none
        intro e he hk
        rcases mem_closeEmits he with ⟨p, hp, hcond, hee⟩
        rw [hee, keyOfEnriched_computeFeatures] at hk
        subst hk
        have hmm := isSome_alookup_of_mem hp
        rw [h3] at hmm
        cases hmm
      rw [hnone]
      show (alookup q s.sink).isSome = true ↔ _
      rw [hsink2, h3]
      simp
    · by_cases hcond3 : (!st3.closed && closableB cfg.grace wm2 st3) = true
      · have hmem : (q, st3) ∈ (ingest s r).store := mem_of_alookup h3
        have hin := @closeEmits_mem cfg wm2 ((ingest s r).store) (q, st3) hmem hcond3
        have hsome := lastPub_isSome hin (keyOfEnriched_computeFeatures cfg q st3 wm2)
        rcases Option.isSome_iff_exists.mp hsome with ⟨v, hv⟩
        rw [hv]
        simp only [h3, Option.map_some']
        have hcc : closableB cfg.grace wm2 st3 = true := by
          have hh := hcond3
          simp only [Bool.and_eq_true] at hh
          exact hh.2
        constructor
        · intro _
          refine ⟨closeOne cfg.grace wm2 st3, rfl, ?_⟩
          rw [closeOne_closed_iff]
          exact Or.inr ((closableB_iff _ _ _).mp hcc)
        · intro _
          rfl
      · have hnone : lastPub q (closeEmits cfg wm2 (ingest s r).store) = none := by
          apply lastPub_eq_none
          intro e he hk
          rcases mem_closeEmits he with ⟨p, hp, hcond, hee⟩
          rw [hee, keyOfEnriched_computeFeatures] at hk
          subst hk
          have hpl : alookup p.1 (ingest s r).store = some p.2 :=
            alookup_of_mem_nodup hnodup2 (by rcases p with ⟨k1, st1⟩; exact hp)
          rw [h3] at hpl
          cases hpl
          exact hcond3 hcond
        rw [hnone]
        show (alookup q s.sink).isSome = true ↔ _
        rw [hsink2, h3]
        have hco : closeOne cfg.grace wm2 st3 = st3 := by
          unfold closeOne
          simp only [hcond3]
          simp
        simp [hco]

theorem inv_runFrom (cfg : Config) (s : PipelineState) (l : List Rec) (h : Inv cfg s) :
    Inv cfg (runFrom cfg s l) := by
  induction l generalizing s with
  | nil => exact h
  | cons r t ih => exact ih (step cfg s r) (inv_step cfg s r h)

theorem inv_empty (cfg : Config) : Inv cfg ({} : PipelineState) := by
  refine ⟨by simp, ?_, ?_⟩
  · intro k st hl
    cases hl
  · intro q
    constructor
    · intro hq
      cases hq
    · rintro ⟨st, hl, _⟩
      cases hl

theorem inv_run (cfg : Config) (l : List Rec) : Inv cfg (run cfg l) :=
  inv_runFrom cfg {} l (inv_empty cfg)

/-! ## Replay machinery for restart safety -/

theorem stepEmits_sink_free (cfg : Config) (s : PipelineState)
    (X : List (Key × EnrichedPlay)) (r : Rec) :
    stepEmits cfg { s with sink := X } r = stepEmits cfg s r := by
  unfold stepEmits
  rw [ingest_sink_shift, advanceWm_sink_shift]
  rfl

theorem step_sink_shift (cfg : Config) (s : PipelineState)
    (X : List (Key × EnrichedPlay)) (r : Rec) :
    step cfg { s with sink := X } r =
      { step cfg s r with sink := publishList (stepEmits cfg s r) X } := by
  unfold step stepEmits
  rw [ingest_sink_shift, advanceWm_sink_shift]
  rfl

theorem runFrom_sink_shift (cfg : Config) (l : List Rec) :
    ∀ (s : PipelineState) (X : List (Key × EnrichedPlay)),
      runFrom cfg { s with sink := X } l =
        { runFrom cfg s l with sink := publishList (emitsFrom cfg s l) X } := by
  induction l with
  | nil =>
    intro s X
    rfl
  | cons r t ih =>
    intro s X
    show runFrom cfg (step cfg { s with sink := X } r) t = _
    rw [step_sink_shift, ih (step cfg s r) (publishList (stepEmits cfg s r) X)]
    show _ = { runFrom cfg (step cfg s r) t with
      sink := publishList (stepEmits cfg s r ++ emitsFrom cfg (step cfg s r) t) X }
    rw [publishList_append]

theorem runFrom_sink (cfg : Config) (s : PipelineState) (l : List Rec) :
    (runFrom cfg s l).sink = publishList (emitsFrom cfg s l) s.sink := by
  have h := runFrom_sink_shift cfg l s s.sink
  have he : { s with sink := s.sink } = s := rfl
  rw [he] at h
  rw [h]

theorem emitsFrom_append (cfg : Config) (l1 l2 : List Rec) :
    ∀ s : PipelineState,
      emitsFrom cfg s (l1 ++ l2) =
        emitsFrom cfg s l1 ++ emitsFrom cfg (runFrom cfg s l1) l2 := by
  induction l1 with
  | nil =>
    intro s
    rfl
  | cons r t ih =>
    intro s
    show stepEmits cfg s r ++ emitsFrom cfg (step cfg s r) (t ++ l2) =
      (stepEmits cfg s r ++ emitsFrom cfg (step cfg s r) t) ++
        emitsFrom cfg (runFrom cfg (step cfg s r) t) l2
    rw [ih (step cfg s r), List.append_assoc]

theorem runFrom_append (cfg : Config) (s : PipelineState) (l1 l2 : List Rec) :
    runFrom cfg s (l1 ++ l2) = runFrom cfg (runFrom cfg s l1) l2 :=
  List.foldl_append _ _ _ _

/-- Re-publishing a batch whose records are already in the sink is
absorbed by the upsert semantics. -/
theorem alookup_publishList_absorb (B C : List EnrichedPlay)
    (Y : List (Key × EnrichedPlay)) (q : Key) :
    alookup q (publishList (B ++ C) (publishList B Y)) =
      alookup q (publishList (B ++ C) Y) := by
  rw [alookup_publishList (B ++ C) (publishList B Y) q,
    alookup_publishList (B ++ C) Y q]
  rcases h : lastPub q (B ++ C) with _ | v
  · rw [lastPub_append] at h
    rcases hc : lastPub q C with _ | w <;> rw [hc] at h <;> simp at h
    rw [alookup_publishList B Y q, h]
  · rfl

/-- Replay equivalence over an abstract three-segment log: running the
tail from the state checkpointed after the first segment, with the sink
already holding the first two segments of emissions, reaches the same
sink as the uninterrupted run. -/
theorem resume_segments (cfg : Config) (l1 l2 l3 : List Rec) (q : Key) :
    alookup q ((runFrom cfg
        { runFrom cfg ({} : PipelineState) l1 with
          sink := (runFrom cfg ({} : PipelineState) (l1 ++ l2)).sink }
        (l2 ++ l3)).sink) =
      alookup q ((runFrom cfg ({} : PipelineState) (l1 ++ l2 ++ l3)).sink) := by
  rw [runFrom_sink_shift]
  show alookup q (publishList
      (emitsFrom cfg (runFrom cfg ({} : PipelineState) l1) (l2 ++ l3))
      (runFrom cfg ({} : PipelineState) (l1 ++ l2)).sink) = _
  rw [emitsFrom_append cfg l2 l3 (runFrom cfg ({} : PipelineState) l1)]
  rw [← runFrom_append cfg ({} : PipelineState) l1 l2]
  rw [runFrom_sink cfg ({} : PipelineState) (l1 ++ l2)]
  rw [runFrom_sink cfg ({} : PipelineState) (l1 ++ l2 ++ l3)]
  rw [emitsFrom_append cfg (l1 ++ l2) l3 ({} : PipelineState)]
  rw [emitsFrom_append cfg l1 l2 ({} : PipelineState)]
  rw [publishList_append (emitsFrom cfg ({} : PipelineState) l1)
    (emitsFrom cfg (runFrom cfg ({} : PipelineState) l1) l2)
    (({} : PipelineState)).sink]
  rw [List.append_assoc (emitsFrom cfg ({} : PipelineState) l1)
    (emitsFrom cfg (runFrom cfg ({} : PipelineState) l1) l2)
    (emitsFrom cfg (runFrom cfg ({} : PipelineState) (l1 ++ l2)) l3)]
  rw [publishList_append (emitsFrom cfg ({} : PipelineState) l1)
    (emitsFrom cfg (runFrom cfg ({} : PipelineState) l1) l2 ++
      emitsFrom cfg (runFrom cfg ({} : PipelineState) (l1 ++ l2)) l3)
    (({} : PipelineState)).sink]
  exact alookup_publishList_absorb _ _ _ q

theorem clamp01_nonneg (q : ℚ) : 0 ≤ clamp01 q :=
  le_max_left 0 _

theorem clamp01_le_one (q : ℚ) : clamp01 q ≤ 1 :=
  max_le (by norm_num) (min_le_left _ _)

/-! ## Claim theorems -/

/-- C1: a tracked play is closed, with its enriched record emitted to the
sink, exactly when the pipeline watermark has reached its last-observed
frame timestamp plus the grace period or a terminal signal has been
observed and the grace period has elapsed past it; closure never occurs
before either condition holds. -/
theorem play_closure_iff_watermark (cfg : Config) (inputs : List Rec) (k : Key)
    (st : PlayState) (h : alookup k (run cfg inputs).store = some st) :
    (st.closed = true ↔ closureCond cfg.grace (pipelineWm (run cfg inputs)) st) ∧
    (st.closed = true ↔ (alookup k (run cfg inputs).sink).isSome = true) := by
  obtain ⟨hn, hc, hs⟩ := inv_run cfg inputs
  refine ⟨hc k st h, ?_⟩
  rw [hs k]
  constructor
  · intro hcl
    exact ⟨st, h, hcl⟩
  · rintro ⟨st2, hl2, hc2⟩
    rw [h] at hl2
    cases hl2
    exact hc2

/-- Witness for C1: the sample play that closed through its terminal
signal satisfies the closure equivalence. -/
theorem play_closure_iff_watermark_witness :
    alookup ("g", 1) (run cfgEx exInputs).store = some exStClosed ∧
    ((exStClosed.closed = true ↔
        closureCond cfgEx.grace (pipelineWm (run cfgEx exInputs)) exStClosed) ∧
      (exStClosed.closed = true ↔
        (alookup ("g", 1) (run cfgEx exInputs).sink).isSome = true)) := by
  have h : alookup ("g", 1) (run cfgEx exInputs).store = some exStClosed := by
    with_unfolding_all decide
  exact ⟨h, play_closure_iff_watermark cfgEx exInputs ("g", 1) exStClosed h⟩

/-- C2: every pressure rate the feature engine emits is null or inside
[0, 1], and every chaos score lies inside [0, 100] (feature values are
exact rationals in this model, so no NaN exists). -/
theorem enriched_feature_bounds (cfg : Config) (k : Key) (st : PlayState) (ts : Nat) :
    (match (computeFeatures cfg k st ts).pressure_rate with
      | none => True
      | some p => 0 ≤ p ∧ p ≤ 1) ∧
    0 ≤ (computeFeatures cfg k st ts).chaos_score ∧
    (computeFeatures cfg k st ts).chaos_score ≤ 100 := by
  refine ⟨?_, ?_, ?_⟩
  · show (match pressureRateOf cfg st.frames with
      | none => True
      | some p => 0 ≤ p ∧ p ≤ 1 : Prop)
    unfold pressureRateOf
    by_cases hw : windowIds cfg st.frames = []
    · simp [hw]
    · simp only [hw, if_false]
      have hl : 0 < (windowIds cfg st.frames).length := List.length_pos.mpr hw
      have hle : (pressedIds cfg st.frames).length ≤ (windowIds cfg st.frames).length :=
        List.length_filter_le _ _
      have hlq : (0 : ℚ) < ((windowIds cfg st.frames).length : ℚ) := by
        exact_mod_cast hl
      constructor
      · positivity
      · rw [div_le_one hlq]
        exact_mod_cast hle
  · show 0 ≤ chaosScoreOf cfg st
    unfold chaosScoreOf
    have h1 := clamp01_nonneg ((pressureRateOf cfg st.frames).getD 0)
    have h2 := clamp01_nonneg (defenderDensity cfg st)
    have h3 := clamp01_nonneg (accelVariance st.frames / cfg.accelVarNorm)
    linarith
  · show chaosScoreOf cfg st ≤ 100
    unfold chaosScoreOf
    have h1 := clamp01_le_one ((pressureRateOf cfg st.frames).getD 0)
    have h2 := clamp01_le_one (defenderDensity cfg st)
    have h3 := clamp01_le_one (accelVariance st.frames / cfg.accelVarNorm)
    linarith

/-- C3: the concrete scenario of section 8 — a play with
PlayEvent(down 1, ydstogo 10, yardline 75) and 30 tracking snapshots, 18
of which put the nearest rusher below the proximity threshold — yields
pressure_rate 18/30 = 3/5. -/
theorem pressure_rate_scenario :
    (computeFeatures cfgEx ("g", 3) scenState 0).pressure_rate = some (3 / 5 : ℚ) ∧
    scenEvent.down = 1 ∧ scenEvent.ydstogo = 10 ∧ scenEvent.yardline_100 = 75 ∧
    (frameIds scenState.frames).length = 30 ∧
    (pressedIds cfgEx scenState.frames).length = 18 := by
  with_unfolding_all decide

/-- C4 counterexample: the claim that closure never happens while the
watermark is below the play last-frame timestamp plus grace fails on the
model: the sample play closes through its terminal signal at watermark 30
although its last frame carries timestamp 100. -/
theorem watermark_guard_counterexample :
    exPost = step cfgEx exPre (Rec.pe exEvB) ∧
    (alookup ("g", 1) exPre.store).map PlayState.closed = some false ∧
    (alookup ("g", 1) exPost.store).map PlayState.closed = some true ∧
    (alookup ("g", 1) exPost.store).map
      (fun st => decide (pipelineWm exPost < st.lastFrameTime + cfgEx.grace)) =
      some true := by
  with_unfolding_all decide

/-- C4 amended: both per-partition watermarks are non-decreasing across
every step, and a play closing in a step satisfies the closure condition
(watermark past last-frame time plus grace, or past the terminal-signal
time plus grace) at the post-step watermark. -/
theorem watermark_monotone_guarded (cfg : Config) (s : PipelineState) (r : Rec) :
    (s.wmEvents ≤ (step cfg s r).wmEvents ∧ s.wmFrames ≤ (step cfg s r).wmFrames) ∧
    (∀ k st st2, alookup k s.store = some st → st.closed = false →
      alookup k (step cfg s r).store = some st2 → st2.closed = true →
      closureCond cfg.grace (pipelineWm (step cfg s r)) st2) := by
  refine ⟨⟨wmEvents_le_step cfg s r, wmFrames_le_step cfg s r⟩, ?_⟩
  intro k st st2 h1 h2 h3 h4
  rw [step_store, alookup_closeStore] at h3
  rcases Option.map_eq_some'.mp h3 with ⟨st3, hl3, he3⟩
  have hflag : st3.closed = st.closed := ingest_closed_flag h1 hl3
  rw [h2] at hflag
  rw [step_pipelineWm]
  subst he3
  rw [closureCond_closeOne]
  rw [closeOne_closed_iff] at h4
  rcases h4 with h4 | h4
  · rw [hflag] at h4
    cases h4
  · exact h4

/-- Witness for C4 amended: the closure step of the sample play satisfies
the amended guard. -/
theorem watermark_monotone_guarded_witness :
    (alookup ("g", 1) exPre.store = some exStOpen ∧ exStOpen.closed = false ∧
      alookup ("g", 1) (step cfgEx exPre (Rec.pe exEvB)).store = some exStClosed ∧
      exStClosed.closed = true) ∧
    closureCond cfgEx.grace (pipelineWm (step cfgEx exPre (Rec.pe exEvB))) exStClosed := by
  have h1 : alookup ("g", 1) exPre.store = some exStOpen := by
    with_unfolding_all decide
  have h2 : exStOpen.closed = false := by
    with_unfolding_all decide
  have h3 : alookup ("g", 1) (step cfgEx exPre (Rec.pe exEvB)).store = some exStClosed := by
    with_unfolding_all decide
  have h4 : exStClosed.closed = true := by
    with_unfolding_all decide
  exact ⟨⟨h1, h2, h3, h4⟩,
    (watermark_monotone_guarded cfgEx exPre (Rec.pe exEvB)).2 ("g", 1)
      exStOpen exStClosed h1 h2 h3 h4⟩

/-- C5: a frame arriving for an already-closed play is diverted to the
side channel: the closed play state is unchanged, and the sink entry of
that play — the already-emitted EnrichedPlay — is unchanged. -/
theorem late_frame_isolated (cfg : Config) (inputs : List Rec) (f : TrackingFrame)
    (st : PlayState) (h1 : alookup (keyOfFrame f) (run cfg inputs).store = some st)
    (h2 : st.closed = true) :
    alookup (keyOfFrame f) (step cfg (run cfg inputs) (Rec.tf f)).store = some st ∧
    alookup (keyOfFrame f) (step cfg (run cfg inputs) (Rec.tf f)).sink =
      alookup (keyOfFrame f) (run cfg inputs).sink ∧
    Rec.tf f ∈ (step cfg (run cfg inputs) (Rec.tf f)).lateRecords := by
  obtain ⟨hn, hcl, hs⟩ := inv_run cfg inputs
  have hkey : keyOfRec (Rec.tf f) = keyOfFrame f := rfl
  have hing : ingest (run cfg inputs) (Rec.tf f) =
      { run cfg inputs with
        lateRecords := (run cfg inputs).lateRecords ++ [Rec.tf f] } :=
    ingest_late (by rw [hkey]; exact h1) h2
  refine ⟨?_, ?_, ?_⟩
  · rw [step_store, alookup_closeStore, hing]
    show (alookup (keyOfFrame f) (run cfg inputs).store).map _ = _
    rw [h1]
    simp [closeOne_of_closed h2]
  · rw [step_sink, alookup_publishList]
    have hnone : lastPub (keyOfFrame f)
        (closeEmits cfg
          (pipelineWm (advanceWm cfg (ingest (run cfg inputs) (Rec.tf f)) (Rec.tf f)))
          (ingest (run cfg inputs) (Rec.tf f)).store) = none := by
      apply lastPub_eq_none
      rw [hing]
      show ∀ e ∈ closeEmits cfg _ (run cfg inputs).store, keyOfEnriched e ≠ keyOfFrame f
      exact closed_key_not_emitted hn h1 h2
    rw [hnone]
  · rw [step_late, hing]
    show Rec.tf f ∈ (run cfg inputs).lateRecords ++ [Rec.tf f]
    simp

/-- Witness for C5: injecting a late frame for the closed sample play
leaves its state and its emitted record unchanged. -/
theorem late_frame_isolated_witness :
    (alookup (keyOfFrame exLateFrame) (run cfgEx exInputs).store = some exStClosed ∧
      exStClosed.closed = true) ∧
    (alookup (keyOfFrame exLateFrame)
        (step cfgEx (run cfgEx exInputs) (Rec.tf exLateFrame)).store = some exStClosed ∧
      alookup (keyOfFrame exLateFrame)
          (step cfgEx (run cfgEx exInputs) (Rec.tf exLateFrame)).sink =
        alookup (keyOfFrame exLateFrame) (run cfgEx exInputs).sink ∧
      Rec.tf exLateFrame ∈
        (step cfgEx (run cfgEx exInputs) (Rec.tf exLateFrame)).lateRecords) := by
  have h1 : alookup (keyOfFrame exLateFrame) (run cfgEx exInputs).store =
      some exStClosed := by
    with_unfolding_all decide
  have h2 : exStClosed.closed = true := by
    with_unfolding_all decide
  exact ⟨⟨h1, h2⟩, late_frame_isolated cfgEx exInputs exLateFrame exStClosed h1 h2⟩

/-- C6: publishing the same EnrichedPlay twice through the Sink Emitter
leaves the downstream keyed store exactly as publishing it once — upsert
by (game_id, play_id) is idempotent under redelivery. -/
theorem publish_idempotent (sink : List (Key × EnrichedPlay)) (e : EnrichedPlay)
    (q : Key) :
    alookup q (publish e (publish e sink)) = alookup q (publish e sink) := by
  by_cases h : keyOfEnriched e = q <;> simp [alookup_publish, h]

/-- C7: crashing after k records with offsets committed at c and replaying
from the checkpoint reproduces, for every play key, the same downstream
sink as the uninterrupted run: no duplicate with different content, no
omission. -/
theorem restart_replay_equiv (cfg : Config) (inputs : List Rec) (c k : Nat) (q : Key)
    (h1 : c ≤ k) (h2 : k ≤ inputs.length) :
    alookup q (checkpointResume cfg inputs c k).sink =
      alookup q (run cfg inputs).sink := by
  have htakek : inputs.take k = inputs.take c ++ (inputs.drop c).take (k - c) := by
    calc inputs.take k = inputs.take (c + (k - c)) := by
          rw [Nat.add_sub_cancel' h1]
      _ = inputs.take c ++ (inputs.drop c).take (k - c) := List.take_add _ _ _
  have hdropc : inputs.drop c = (inputs.drop c).take (k - c) ++ inputs.drop k := by
    have hd : (inputs.drop c).drop (k - c) = inputs.drop k := by
      rw [List.drop_drop]
      congr 1
      omega
    rw [← hd, List.take_append_drop]
  have hinputs : inputs.take c ++ (inputs.drop c).take (k - c) ++ inputs.drop k =
      inputs := by
    rw [List.append_assoc, ← hdropc, List.take_append_drop]
  have hgen := resume_segments cfg (inputs.take c) ((inputs.drop c).take (k - c))
    (inputs.drop k) q
  rw [hinputs, ← htakek] at hgen
  rw [← hdropc] at hgen
  exact hgen

/-- Witness for C7: a crash after two of the three sample records with the
first committed replays to the same sink as the uninterrupted run. -/
theorem restart_replay_equiv_witness :
    (1 ≤ 2 ∧ 2 ≤ exInputs.length) ∧
    alookup ("g", 1) (checkpointResume cfgEx exInputs 1 2).sink =
      alookup ("g", 1) (run cfgEx exInputs).sink :=
  ⟨⟨by decide, by decide⟩,
    restart_replay_equiv cfgEx exInputs 1 2 ("g", 1) (by decide) (by decide)⟩

/-- C8: the feature transform is total on partial play states; a play with
no rusher-tagged frames yields null nearest_defender_dist, a false
was_pressure flag and a null pressure_rate rather than an error. -/
theorem missing_inputs_null_features (cfg : Config) (k : Key) (st : PlayState)
    (ts : Nat) (h : ∀ f ∈ st.frames, isRusher cfg f = false) :
    (computeFeatures cfg k st ts).nearest_defender_dist = none ∧
    (computeFeatures cfg k st ts).was_pressure = false ∧
    (computeFeatures cfg k st ts).pressure_rate = none := by
  have hfil : st.frames.filter (fun f => isRusher cfg f) = [] := by
    rw [List.filter_eq_nil]
    intro a ha
    simp [h a ha]
  have hnsq : ∀ i, nearestSqAt cfg st.frames i = none := by
    intro i
    unfold nearestSqAt
    rcases hq : (frameGroup st.frames i).find? isPasser with _ | qf
    · rfl
    · have hg : (frameGroup st.frames i).filter (fun f => isRusher cfg f) = [] := by
        rw [List.filter_eq_nil]
        intro a ha
        have hm : a ∈ st.frames := (List.mem_filter.mp ha).1
        simp [h a hm]
      show (((frameGroup st.frames i).filter (fun f => isRusher cfg f)).map _).min? = none
      rw [hg]
      rfl
  have hwin : windowIds cfg st.frames = [] := by
    unfold windowIds
    rw [List.filter_eq_nil]
    intro i _
    simp [hnsq i]
  have hpress : pressedIds cfg st.frames = [] := by
    unfold pressedIds
    rw [hwin]
    rfl
  refine ⟨?_, ?_, ?_⟩
  · show nearestDefenderDistOf cfg st.frames = none
    unfold nearestDefenderDistOf
    show (match ((st.frames.filter (fun f => isRusher cfg f)).map _).min? with
      | none => none
      | some i => nearestSqAt cfg st.frames i) = none
    rw [hfil]
    rfl
  · show wasPressureOf cfg st.frames = false
    unfold wasPressureOf
    rw [hpress]
    rfl
  · show pressureRateOf cfg st.frames = none
    unfold pressureRateOf
    rw [hwin]
    rfl

/-- Witness for C8: a play state holding only passer and receiver frames
yields null nearest-defender distance and no pressure. -/
theorem missing_inputs_null_features_witness :
    (∀ f ∈ noRusherState.frames, isRusher cfgEx f = false) ∧
    ((computeFeatures cfgEx ("g", 4) noRusherState 0).nearest_defender_dist = none ∧
      (computeFeatures cfgEx ("g", 4) noRusherState 0).was_pressure = false ∧
      (computeFeatures cfgEx ("g", 4) noRusherState 0).pressure_rate = none) := by
  have h : ∀ f ∈ noRusherState.frames, isRusher cfgEx f = false := by
    with_unfolding_all decide
  exact ⟨h, missing_inputs_null_features cfgEx ("g", 4) noRusherState 0 h⟩

/-- C9: the goal_to_go field the dashboards post to /predict is 1 exactly
when yardline_100 is at most ydstogo and 0 otherwise; equality yields 1. -/
theorem goal_to_go_threshold (play : DemoPlay) :
    ((buildPredictBody play).goal_to_go = 1 ↔ play.yardline_100 ≤ play.ydstogo) ∧
    ((buildPredictBody play).goal_to_go = 0 ↔ play.ydstogo < play.yardline_100) ∧
    (play.yardline_100 = play.ydstogo → (buildPredictBody play).goal_to_go = 1) := by
  rw [show (buildPredictBody play).goal_to_go =
    if play.yardline_100 ≤ play.ydstogo then 1 else 0 from rfl]
  refine ⟨?_, ?_, ?_⟩ <;> split <;> omega

/-- Witness for C9: a play whose yard line equals its distance to go is
posted with goal_to_go = 1. -/
theorem goal_to_go_threshold_witness :
    goalLinePlay.yardline_100 = goalLinePlay.ydstogo ∧
    (buildPredictBody goalLinePlay).goal_to_go = 1 :=
  ⟨by decide, (goal_to_go_threshold goalLinePlay).2.2 (by decide)⟩

/-- C10: every simulation tick advances the demo index by one modulo the
demo-play count, every reachable index is a valid list index, and the tick
after the last play wraps to the first. -/
theorem demo_index_invariant (n i : Nat) :
    demoIndexAfter n < demoPlays.length ∧
    demoTick i = (i + 1) % demoPlays.length ∧
    (i + 1 < demoPlays.length → demoTick i = i + 1) ∧
    demoTick (demoPlays.length - 1) = 0 := by
  refine ⟨?_, rfl, ?_, by decide⟩
  · induction n with
    | zero =>
      show 0 < demoPlays.length
      decide
    | succ m ih =>
      show demoTick (demoIndexAfter m) < demoPlays.length
      unfold demoTick
      exact Nat.mod_lt _ (by decide)
  · intro h
    unfold demoTick
    exact Nat.mod_eq_of_lt h

/-- Witness for C10: after seven ticks the index is still valid, and a
mid-list tick advances by exactly one. -/
theorem demo_index_invariant_witness :
    demoIndexAfter 7 < demoPlays.length ∧
    demoTick 3 = (3 + 1) % demoPlays.length ∧
    demoTick 3 = 4 ∧
    demoTick (demoPlays.length - 1) = 0 :=
  ⟨(demo_index_invariant 7 3).1, (demo_index_invariant 7 3).2.1,
    (demo_index_invariant 7 3).2.2.1 (by decide), (demo_index_invariant 7 3).2.2.2⟩

end NFL
